import Mathlib

set_option maxRecDepth 1000000

/-
  Verification development for the ai-research-agent orchestration core.

  Shallow embedding of the Python sources:
    - ai_research_agent/models.py           (data model, pydantic validation)
    - src/state_machine.py                  (lifecycle finite state machine)
    - ai_research_agent/components/executor.py  (retry policy, early termination, summaries)
    - ai_research_agent/components/planner.py   (plan construction, scheduler, replanning)
    - src/reasoning/__init__.py             (strategy router)
    - src/reasoning/tree_of_thoughts.py     (bounded tree search)

  Modelling conventions:
    - Python strings are Lean `String`; the character-level operations
      (lower-casing, substring tests, whitespace splitting) are implemented
      over `List Char` so that every definition evaluates inside the kernel.
    - Python `datetime` timestamps are abstract `Nat` clock values supplied
      by the caller.
    - The float constants reachable in the tree-search engine and the
      duration estimator (0.1, 0.2, 0.5, 0.6, 0.7, 1.0, 1.5, 5) are all exact
      multiples of 1/10, so quality scores and durations are represented as
      exact integer tenths; result-rate arithmetic in the executor
      (`failed/total`, `successes/total`) is represented over `ℚ`.
    - External collaborators (the LLM "Reasoning Oracle") are parameters:
      a thought generator `ThoughtNode → List String` and an evaluator
      `String → Nat` for the tree search, and an outcome datatype for the
      planner's LLM call.
-/

namespace RAgent

/-! ## Python string primitives over `List Char` -/

/-- Python `str.lower()` on the character list of a string. -/
def pyLower (s : List Char) : List Char := s.map Char.toLower

/-- `isPrefixCh needle hay`: does `needle` occur at the head of `hay`? -/
def isPrefixCh : List Char → List Char → Bool
  | [], _ => true
  | _ :: _, [] => false
  | a :: as, b :: bs => a == b && isPrefixCh as bs

/-- Python `needle in hay` substring containment on character lists. -/
def containsSub (needle : List Char) : List Char → Bool
  | [] => isPrefixCh needle []
  | c :: t => isPrefixCh needle (c :: t) || containsSub needle t

/-- Helper for `pyWords`: accumulate the current word (reversed) while
splitting on whitespace. -/
def pyWordsAux : List Char → List Char → List (List Char)
  | [], acc => if acc.isEmpty then [] else [acc.reverse]
  | c :: rest, acc =>
    if c.isWhitespace then
      if acc.isEmpty then pyWordsAux rest [] else acc.reverse :: pyWordsAux rest []
    else pyWordsAux rest (c :: acc)

/-- Python `str.split()` with no separator: split on whitespace runs,
dropping empty words. -/
def pyWords (s : List Char) : List (List Char) := pyWordsAux s []

/-- Python code-point comparison of characters. -/
def chLt (a b : Char) : Bool := decide (a.toNat < b.toNat)

/-- Python lexicographic `<` on strings, on the character lists. -/
def chListLt : List Char → List Char → Bool
  | [], [] => false
  | [], _ :: _ => true
  | _ :: _, [] => false
  | a :: as, b :: bs =>
    if chLt a b then true else if chLt b a then false else chListLt as bs

/-! ## models.py — data model -/

/-- `AgentState` enum (models.py). -/
inductive AgentState where
  | IDLE
  | PLANNING
  | EXECUTING
  | REPLANNING
  | SYNTHESIZING
  | DONE
  | ERROR
deriving DecidableEq, Repr

/-- The `str` value of an `AgentState` member. -/
def AgentState.value : AgentState → String
  | .IDLE => "IDLE"
  | .PLANNING => "PLANNING"
  | .EXECUTING => "EXECUTING"
  | .REPLANNING => "REPLANNING"
  | .SYNTHESIZING => "SYNTHESIZING"
  | .DONE => "DONE"
  | .ERROR => "ERROR"

/-- `ReasoningStrategy` enum (models.py). -/
inductive ReasoningStrategy where
  | REACT
  | TREE_OF_THOUGHTS
deriving DecidableEq, Repr

/-- The `str` value of a `ReasoningStrategy` member. -/
def ReasoningStrategy.value : ReasoningStrategy → String
  | .REACT => "REACT"
  | .TREE_OF_THOUGHTS => "TREE_OF_THOUGHTS"

/-- `ToolResult.result : Union[str, Dict[str, Any]]`; dictionary values are
modelled as strings (the orchestration logic only reads string-valued keys). -/
inductive ToolPayload where
  | str (s : String)
  | dict (entries : List (String × String))
deriving DecidableEq

/-- `ToolResult` (models.py).  `execution_time` is a nonnegative float,
modelled over `ℚ`. -/
structure ToolResult where
  tool_name : String
  success : Bool
  result : ToolPayload
  error_message : Option String
  execution_time : ℚ
  metadata : List (String × String)
deriving DecidableEq

/-- `ResearchStep` (models.py).  `created_at`-style timestamps are absent
from the step model in the source as well. -/
structure ResearchStep where
  step_number : Nat
  task : String
  reasoning_strategy : ReasoningStrategy
  tool_name : Option String
  expected_output : String
  dependencies : List Nat
  completed : Bool
  result : Option ToolResult
deriving DecidableEq

/-- `ResearchPlan` (models.py), minus the `created_at` timestamp.
`estimated_duration : Optional[int]` with `ge=0` is `Option Nat`. -/
structure ResearchPlan where
  query : String
  steps : List ResearchStep
  strategy : String
  estimated_duration : Option Nat
deriving DecidableEq

/-- Python `len(set(nums)) != len(nums)`: does the list contain a duplicate? -/
def hasDup : List Nat → Bool
  | [] => false
  | n :: rest => rest.contains n || hasDup rest

/-- The `validate_step_numbers` pydantic validator of `ResearchPlan`
(models.py lines 66-74): step numbers must be unique and must equal
`list(range(1, len(steps) + 1))`. -/
def validateStepNumbers (steps : List ResearchStep) : Option String :=
  let step_numbers := steps.map (·.step_number)
  if hasDup step_numbers then some "Step numbers must be unique"
  else if step_numbers ≠ List.range' 1 step_numbers.length then
    some "Step numbers must be sequential starting from 1"
  else none

/-- Constructing a `ResearchPlan` through pydantic: the field constraints
(`query` min_length 1, `steps` min_items 1) and then the
`validate_step_numbers` validator; any violation raises a validation
error, modelled as `Except.error`. -/
def mkResearchPlan (query : String) (steps : List ResearchStep)
    (strategy : String) (estimated_duration : Option Nat) :
    Except String ResearchPlan :=
  if query.length < 1 then
    Except.error "query: ensure this value has at least 1 characters"
  else if steps.length < 1 then
    Except.error "steps: ensure this value has at least 1 items"
  else
    match validateStepNumbers steps with
    | some msg => Except.error msg
    | none => Except.ok (ResearchPlan.mk query steps strategy estimated_duration)

/-- The part of `AgentContext` (models.py) touched by the state machine:
the current state, the fields the transition must not disturb, and the
`last_updated` timestamp. -/
structure AgentContextM where
  state : AgentState
  query : Option String
  results : List ToolResult
  reasoning_history : List (List (String × String))
  last_updated : Nat
deriving DecidableEq

/-! ## src/state_machine.py — lifecycle finite state machine -/

/-- `ResearchAgentStateMachine._define_transitions` (state_machine.py
lines 35-73): the allowed-target set for every state. -/
def validTransitions : AgentState → List AgentState
  | .IDLE => [.PLANNING, .ERROR]
  | .PLANNING => [.EXECUTING, .ERROR, .IDLE]
  | .EXECUTING => [.REPLANNING, .SYNTHESIZING, .ERROR, .IDLE]
  | .REPLANNING => [.EXECUTING, .PLANNING, .ERROR, .IDLE]
  | .SYNTHESIZING => [.DONE, .ERROR, .EXECUTING]
  | .DONE => [.IDLE, .PLANNING]
  | .ERROR => [.IDLE, .PLANNING, .EXECUTING]

/-- `can_transition` (state_machine.py line 75): membership in the allowed
set of the from-state. -/
def canTransition (from_state to_state : AgentState) : Bool :=
  (validTransitions from_state).contains to_state

/-- `ResearchAgentStateMachine.transition` (state_machine.py lines 79-103).
State threaded explicitly: the machine's `transition_history` list, the
context, and the current clock value (`datetime.now()`).  An invalid target
raises `ValueError` before any mutation; a valid one appends the new state
to the history, sets `context.state`, and stamps `last_updated`. -/
def transition (history : List AgentState) (ctx : AgentContextM)
    (new_state : AgentState) (now : Nat) :
    Except String (List AgentState × AgentContextM) :=
  if canTransition ctx.state new_state then
    Except.ok (history ++ [new_state],
      AgentContextM.mk new_state ctx.query ctx.results ctx.reasoning_history now)
  else
    Except.error ("Invalid transition from " ++ ctx.state.value ++ " to "
      ++ new_state.value)

/-- An idle context used to instantiate the state-machine theorem. -/
def sampleContext : AgentContextM := AgentContextM.mk .IDLE none [] [] 0

/-- Step literals with a duplicated step number, used to instantiate the
plan-validation theorem. -/
def dupStepA : ResearchStep :=
  ResearchStep.mk 1 "first task" .REACT none "out" [] false none

/-- Second step carrying the same number as `dupStepA`. -/
def dupStepB : ResearchStep :=
  ResearchStep.mk 1 "second task" .REACT none "out" [] false none

/-! ## components/executor.py — retry policy, early termination, summaries -/

/-- `PlanExecutor._select_reasoning_strategy` (executor.py lines 136-153):
the step's strategy string, lower-cased, for attempt 0; on any retry
attempt (`attempt > 0`) the opposite strategy string. -/
def selectReasoningStrategy (strategy : ReasoningStrategy) (attempt : Nat) :
    List Char :=
  let base_strategy := pyLower strategy.value.data
  if attempt > 0 then
    if base_strategy == "react".data then "tree_of_thoughts".data
    else "react".data
  else base_strategy

/-- The reasoning strategy opposite to a step's nominal strategy, as the
string the executor passes to the reasoning manager. -/
def escalatedStrategy : ReasoningStrategy → List Char
  | .REACT => "tree_of_thoughts".data
  | .TREE_OF_THOUGHTS => "react".data

/-- The retry loop of `PlanExecutor.execute_step` (executor.py lines
53-70) restricted to its observable strategy choices: starting at
`attempt` with `remaining` attempts left (`max_retries = 3` overall),
record the strategy selected for each attempt, stopping after the first
attempt the outcome oracle `succeeds` reports as successful. -/
def attemptTrace (strategy : ReasoningStrategy) (succeeds : Nat → Bool) :
    Nat → Nat → List (List Char)
  | _, 0 => []
  | attempt, remaining + 1 =>
    let used := selectReasoningStrategy strategy attempt
    if succeeds attempt then [used]
    else used :: attemptTrace strategy succeeds (attempt + 1) remaining

/-- The strategies `execute_step` runs through for a step, given the
per-attempt outcome oracle (`max_retries = 3`). -/
def executeStepStrategyTrace (strategy : ReasoningStrategy)
    (succeeds : Nat → Bool) : List (List Char) :=
  attemptTrace strategy succeeds 0 3

/-- An outcome oracle under which every attempt fails. -/
def alwaysFail : Nat → Bool := fun _ => false

/-- `PlanExecutor.should_terminate_early` (executor.py lines 294-311):
false below 2 results, otherwise `failed/total > failure_threshold`. -/
def shouldTerminateEarly (results : List ToolResult)
    (failure_threshold : ℚ) : Bool :=
  if results.length < 2 then false
  else
    let failed_count := (results.filter (fun r => !r.success)).length
    let failure_rate : ℚ := (failed_count : ℚ) / (results.length : ℚ)
    decide (failure_rate > failure_threshold)

/-- Python dict counting `usage[k] = usage.get(k, 0) + 1` over an
insertion-ordered association list. -/
def bumpCount (m : List (String × Nat)) (k : String) : List (String × Nat) :=
  if m.any (fun p => p.1 == k) then
    m.map (fun p => if p.1 == k then (p.1, p.2 + 1) else p)
  else m ++ [(k, 1)]

/-- The `get_execution_summary` result record (executor.py lines 241-265). -/
structure ExecutionSummary where
  total_steps : Nat
  successful_steps : Nat
  failed_steps : Nat
  success_rate : ℚ
  total_execution_time : ℚ
  average_execution_time : ℚ
  strategy_usage : List (String × Nat)
  error_summary : List String
deriving DecidableEq

/-- `PlanExecutor.get_execution_summary` (executor.py lines 241-265): pure
aggregation; both divisions are guarded by `if results else 0`, and the
`if strategy` / `if r.error_message` guards are Python truthiness (neither
`None` nor the empty string). -/
def getExecutionSummary (results : List ToolResult) : ExecutionSummary :=
  let successful_results := results.filter (·.success)
  let failed_results := results.filter (fun r => !r.success)
  let total_execution_time : ℚ := (results.map (·.execution_time)).sum
  let strategy_usage := successful_results.foldl (fun m r =>
    match r.result with
    | .dict entries =>
      match entries.lookup "reasoning_strategy" with
      | some strategy => if strategy == "" then m else bumpCount m strategy
      | none => m
    | .str _ => m) []
  ExecutionSummary.mk
    results.length
    successful_results.length
    failed_results.length
    (if results.length ≠ 0 then (successful_results.length : ℚ) / (results.length : ℚ) else 0)
    total_execution_time
    (if results.length ≠ 0 then total_execution_time / (results.length : ℚ) else 0)
    strategy_usage
    (failed_results.filterMap (fun r =>
      match r.error_message with
      | some e => if e == "" then none else some e
      | none => none))

/-! ## components/planner.py — scheduler -/

/-- The set comprehension of `get_next_executable_step` (planner.py lines
384-386): numbers of the completed steps. -/
def completedStepNumbers (plan : ResearchPlan) : List Nat :=
  (plan.steps.filter (·.completed)).map (·.step_number)

/-- The loop-body condition of `get_next_executable_step` (planner.py
lines 388-395): an incomplete step whose dependencies are all in the
completed set. -/
def stepReady (completed : List Nat) (step : ResearchStep) : Bool :=
  !step.completed && step.dependencies.all (fun dep => decide (dep ∈ completed))

/-- `ResearchPlanner.get_next_executable_step` (planner.py lines 380-397):
the first step in plan order that is incomplete with all dependencies
satisfied, else `none`. -/
def getNextExecutableStep (plan : ResearchPlan) : Option ResearchStep :=
  plan.steps.find? (stepReady (completedStepNumbers plan))

/-- A completed first step used to instantiate the scheduler theorem. -/
def schedStep1 : ResearchStep :=
  ResearchStep.mk 1 "gather" .REACT none "out" [] true none

/-- An incomplete second step depending on the first, used to instantiate
the scheduler theorem. -/
def schedStep2 : ResearchStep :=
  ResearchStep.mk 2 "analyze findings" .REACT none "out" [1] false none

/-- A two-step plan in which only the second step is executable. -/
def schedPlan : ResearchPlan :=
  ResearchPlan.mk "q" [schedStep1, schedStep2] "decomposition_first" none

/-! ## components/planner.py — duration estimate and replanning -/

/-- The per-step time of `_estimate_duration` (planner.py lines 284-306)
in tenths of a minute: base 5 minutes (50 tenths), tool multipliers 2/3/2,
and the exact 1.5 factor for tree-of-thoughts steps. -/
def stepTimeTenths (step : ResearchStep) : Nat :=
  let base_time := 50
  let step_time :=
    match step.tool_name with
    | some name =>
      if name == "web_search" then base_time * 2
      else if name == "pdf_parser" then base_time * 3
      else if name == "data_analyzer" then base_time * 2
      else base_time
    | none => base_time
  if step.reasoning_strategy == ReasoningStrategy.TREE_OF_THOUGHTS then
    step_time * 3 / 2
  else step_time

/-- `_estimate_duration`: total minutes, with Python's `int()` truncation
of the (nonnegative) tenths total. -/
def estimateDuration (steps : List ResearchStep) : Nat :=
  (steps.map stepTimeTenths).sum / 10

/-- `ResearchPlanner.replan_from_step` (planner.py lines 336-378), with
the regenerated steps supplied by the external planner collaborator as a
parameter: keep the completed steps numbered below `current_step_number`,
renumber the new steps from `current_step_number`, filter their
dependencies to numbers below `current_step_number`, and construct the
`ResearchPlan` (whose pydantic validation can reject the result). -/
def replanFromStep (original_plan : ResearchPlan) (current_step_number : Nat)
    (new_steps : List ResearchStep) : Except String ResearchPlan :=
  let completed_steps := original_plan.steps.filter
    (fun step => decide (step.step_number < current_step_number) && step.completed)
  let adjusted_steps := new_steps.enum.map (fun q =>
    ResearchStep.mk (current_step_number + q.1) q.2.task q.2.reasoning_strategy
      q.2.tool_name q.2.expected_output
      (q.2.dependencies.filter (fun dep => decide (dep < current_step_number)))
      q.2.completed q.2.result)
  mkResearchPlan original_plan.query (completed_steps ++ adjusted_steps)
    "replanned" (some (estimateDuration adjusted_steps))

/-- A completed first step of the replanning counterexample plan. -/
def cxPlanStep1 : ResearchStep :=
  ResearchStep.mk 1 "s1" .REACT none "o" [] true none

/-- An INCOMPLETE second step of the replanning counterexample plan. -/
def cxPlanStep2 : ResearchStep :=
  ResearchStep.mk 2 "s2" .REACT none "o" [1] false none

/-- A third step of the replanning counterexample plan. -/
def cxPlanStep3 : ResearchStep :=
  ResearchStep.mk 3 "s3" .REACT none "o" [2] false none

/-- The replanning counterexample plan: steps 1-3, step 2 incomplete. -/
def cxReplanOriginal : ResearchPlan :=
  ResearchPlan.mk "q" [cxPlanStep1, cxPlanStep2, cxPlanStep3]
    "decomposition_first" none

/-- A single regenerated step handed back by the planner collaborator. -/
def cxReplanNewStep : ResearchStep :=
  ResearchStep.mk 1 "regen" .REACT none "o" [] false none

/-! ## components/planner.py — plan construction and template fallback -/

/-- `MAX_PLAN_STEPS` (config.py line 39). -/
def maxPlanSteps : Nat := 10

/-- `_generate_template_steps` (planner.py lines 153-197): the
deterministic 4-step template (search, analyze, deepen, synthesize). -/
def generateTemplateSteps (query : String) (available_tools : List String) :
    List ResearchStep :=
  [ResearchStep.mk 1 ("Search for current information about: " ++ query)
      .REACT
      (if available_tools.contains "web_search" then some "web_search" else none)
      "Current information and key sources on the topic" [] false none,
   ResearchStep.mk 2 "Analyze initial search results and identify key themes"
      .REACT none
      "Key themes and areas requiring deeper investigation" [1] false none,
   ResearchStep.mk 3 "Conduct focused search on identified key themes"
      .REACT
      (if available_tools.contains "web_search" then some "web_search" else none)
      "Detailed information on specific aspects of the topic" [2] false none,
   ResearchStep.mk 4 "Synthesize all findings into comprehensive analysis"
      .TREE_OF_THOUGHTS none
      "Comprehensive analysis with conclusions and insights" [1, 2, 3] false none]

/-- The observable outcomes of the LLM side of plan generation:
no LLM configured, `llm.invoke` raising, or an invocation whose response
went through `_parse_plan_response` — which returns the parsed steps, or
the EMPTY list when the response held no parsable JSON (planner.py lines
248-282: the `except` prints and falls through to `return []`). -/
inductive LLMPlanOutcome where
  | noLLM
  | raises
  | parsed (steps : List ResearchStep)

/-- `_generate_steps_with_llm` (planner.py lines 138-151) together with
the `llm is None` branch of `_decomposition_first_plan`: template steps
when there is no LLM or the invocation raises; otherwise whatever the
parser produced. -/
def plannerSteps (query : String) (available_tools : List String) :
    LLMPlanOutcome → List ResearchStep
  | .noLLM => generateTemplateSteps query available_tools
  | .raises => generateTemplateSteps query available_tools
  | .parsed steps => steps

/-- `_decomposition_first_plan` (planner.py lines 73-99): obtain steps,
truncate to `MAX_PLAN_STEPS`, estimate the duration, and construct the
`ResearchPlan` (pydantic validation included, uncaught on failure). -/
def decompositionFirstPlan (query : String) (available_tools : List String)
    (outcome : LLMPlanOutcome) : Except String ResearchPlan :=
  let steps := (plannerSteps query available_tools outcome).take maxPlanSteps
  mkResearchPlan query steps "decomposition_first"
    (some (estimateDuration steps))

/-- A proposed step depending on the non-existent step number 99. -/
def danglingDepStep : ResearchStep :=
  ResearchStep.mk 1 "t" .REACT none "o" [99] false none

/-! ## src/reasoning/tree_of_thoughts.py — bounded tree search -/

/-- `ThoughtNode` (tree_of_thoughts.py lines 23-33); `quality_score` in
integer tenths; `metadata` keeps the root's context entry. -/
structure ThoughtNode where
  id : String
  content : String
  parent_id : Option String
  depth : Nat
  quality_score : Nat
  state : String
  children : List String
  metadata : List (String × String)
deriving DecidableEq

/-- `max_depth` D (tree_of_thoughts.py line 43). -/
def maxDepth : Nat := 4

/-- `max_thoughts_per_level` K (tree_of_thoughts.py line 44). -/
def maxThoughtsPerLevel : Nat := 3

/-- `quality_threshold` τ = 0.6, in tenths (tree_of_thoughts.py line 45). -/
def qualityThresholdTenths : Nat := 6

/-- Placeholder for total association-list lookups; the source's dict
accesses are always on present keys. -/
def dummyNode : ThoughtNode := ThoughtNode.mk "" "" none 0 0 "" [] []

/-- The solution vocabulary of `_is_solution_candidate`
(tree_of_thoughts.py lines 205-213). -/
def solutionIndicators : List String :=
  ["solution", "answer", "conclusion", "result", "therefore",
   "in summary", "final", "complete", "solved"]

/-- `_is_solution_candidate`: any indicator occurring in the lower-cased
content. -/
def isSolutionCandidate (content : String) : Bool :=
  solutionIndicators.any (fun ind => containsSub ind.data (pyLower content.data))

/-- `parent_thought.children.append(child_id)` on the node held in the
table (the source mutates the dict entry in place). -/
def appendChildId (tree : List (String × ThoughtNode)) (pid cid : String) :
    List (String × ThoughtNode) :=
  tree.map (fun p =>
    if p.1 == pid then
      (p.1, ThoughtNode.mk p.2.id p.2.content p.2.parent_id p.2.depth
        p.2.quality_score p.2.state (p.2.children ++ [cid]) p.2.metadata)
    else p)

/-- The in-level accumulator of `solve_problem`: the node table, the
`next_level` ids, and the `solution_candidates` ids. -/
structure LevelState where
  tree : List (String × ThoughtNode)
  next_level : List String
  solution_candidates : List String
deriving DecidableEq

/-- The child loop body of `solve_problem` (tree_of_thoughts.py lines
97-119): assign id `thought_{len(tree)}`, parent and depth, score the
content, insert into the table, register with the parent, collect it as a
solution candidate when the vocabulary matches, and admit it to the next
level when the score meets the threshold and the depth is below the
maximum. -/
def processChild (evalScore : String → Nat) (depth : Nat) (pid : String)
    (st : LevelState) (content : String) : LevelState :=
  let child_id := "thought_" ++ toString st.tree.length
  let quality_score := evalScore content
  let node := ThoughtNode.mk child_id content (some pid) depth quality_score
    "pending" [] []
  let tree := appendChildId (st.tree ++ [(child_id, node)]) pid child_id
  let solution_candidates :=
    if isSolutionCandidate content then st.solution_candidates ++ [child_id]
    else st.solution_candidates
  let next_level :=
    if decide (qualityThresholdTenths ≤ quality_score) && decide (depth < maxDepth)
    then st.next_level ++ [child_id]
    else st.next_level
  LevelState.mk tree next_level solution_candidates

/-- One parent of the level (tree_of_thoughts.py lines 88-119): look the
parent up, ask the generator for child contents, run the child loop. -/
def processParent (generate : ThoughtNode → List String)
    (evalScore : String → Nat) (depth : Nat) (st : LevelState)
    (pid : String) : LevelState :=
  let parent_thought := (st.tree.lookup pid).getD dummyNode
  (generate parent_thought).foldl (processChild evalScore depth pid) st

/-- Python's descending tuple comparison on `(quality_score, thought_id)`
pairs, as used by `scored_thoughts.sort(reverse=True)`. -/
def pairBefore (a b : Nat × String) : Bool :=
  if a.1 == b.1 then !(chListLt a.2.data b.2.data) else decide (b.1 < a.1)

/-- Stable insertion for the descending sort. -/
def insertDesc (x : Nat × String) : List (Nat × String) → List (Nat × String)
  | [] => [x]
  | y :: ys => if pairBefore y x then y :: insertDesc x ys else x :: y :: ys

/-- Python's stable `sort(reverse=True)` on `(score, id)` pairs. -/
def sortDesc (l : List (Nat × String)) : List (Nat × String) :=
  l.foldr insertDesc []

/-- `_select_best_thoughts` (tree_of_thoughts.py lines 215-226): sort the
`(score, id)` pairs descending and keep the top
`max_thoughts_per_level`. -/
def selectBestThoughts (thought_ids : List String)
    (tree : List (String × ThoughtNode)) : List String :=
  let scored_thoughts := thought_ids.map (fun tid =>
    (((tree.lookup tid).getD dummyNode).quality_score, tid))
  ((sortDesc scored_thoughts).take maxThoughtsPerLevel).map (·.2)

/-- The between-levels state of `solve_problem`: node table,
`current_level`, `solution_candidates`. -/
structure TotState where
  tree : List (String × ThoughtNode)
  current_level : List String
  solution_candidates : List String
deriving DecidableEq

/-- One depth iteration of `solve_problem` (tree_of_thoughts.py lines
85-125): process every parent of the current level, then prune the next
level to the best K only when more than K would advance. -/
def levelStep (generate : ThoughtNode → List String)
    (evalScore : String → Nat) (st : TotState) (depth : Nat) : TotState :=
  let ls := st.current_level.foldl (processParent generate evalScore depth)
    (LevelState.mk st.tree [] st.solution_candidates)
  let next_level :=
    if ls.next_level.length > maxThoughtsPerLevel then
      selectBestThoughts ls.next_level ls.tree
    else ls.next_level
  TotState.mk ls.tree next_level ls.solution_candidates

/-- The depth loop of `solve_problem` (lines 85-129) with its early exit
once at least two solution candidates exist; the check sits at the end of
each level. -/
def runLevels (generate : ThoughtNode → List String)
    (evalScore : String → Nat) : List Nat → TotState → TotState
  | [], st => st
  | depth :: rest, st =>
    let st1 := levelStep generate evalScore st depth
    if st1.solution_candidates.length ≥ 2 then st1
    else runLevels generate evalScore rest st1

/-- `solve_problem` (tree_of_thoughts.py lines 60-143) up to result
selection: the synthetic root (depth 0, quality 1.0, state "expanded"),
then the bounded breadth-first search over depths `1..max_depth`.  The
claim concerns the node table (`total_thoughts = len(thought_tree)`). -/
def solveProblem (generate : ThoughtNode → List String)
    (evalScore : String → Nat) (problem context : String) : TotState :=
  let root := ThoughtNode.mk "root" ("Problem: " ++ problem) none 0 10
    "expanded" [] [("context", context)]
  runLevels generate evalScore (List.range' 1 maxDepth)
    (TotState.mk [("root", root)] ["root"] [])

/-- The offline branch of `_generate_thoughts` (tree_of_thoughts.py lines
153-162): two mock thoughts quoting the first 50 characters of the
parent's content. -/
def mockGenerate (parent_thought : ThoughtNode) : List String :=
  (List.range 2).map (fun i =>
    "Mock thought " ++ toString i ++ " for: " ++
      String.mk (parent_thought.content.data.take 50) ++ "...")

/-- The offline branch of `_evaluate_thought` (tree_of_thoughts.py lines
182-195), in tenths: 0.5 base, +0.2 for solution vocabulary, +0.1 for
more than ten words, capped at 1.0. -/
def mockEvaluate (content : String) : Nat :=
  let c := pyLower content.data
  let score := 5
  let score :=
    if ["solution", "answer", "conclusion", "result"].any
        (fun w => containsSub w.data c) then score + 2
    else score
  let score := if (pyWords c).length > 10 then score + 1 else score
  min score 10

/-- An eleven-word problem (so that mock thoughts clear the ten-word
evaluation bonus and keep advancing). -/
def cxTotProblem : String := "a b c d e f g h i j k"

/-! ## src/reasoning/__init__.py — strategy router -/

/-- The Tree-of-Thoughts indicator vocabulary of
`ReasoningManager._select_strategy` (reasoning/__init__.py lines 49-53). -/
def totIndicators : List String :=
  ["analyze", "compare", "evaluate", "complex", "multiple",
   "alternatives", "trade-offs", "pros and cons", "strategy",
   "approach", "methodology", "framework", "comprehensive"]

/-- The ReAct indicator vocabulary of `_select_strategy`
(reasoning/__init__.py lines 56-59). -/
def reactIndicators : List String :=
  ["search", "find", "lookup", "get", "retrieve", "download",
   "extract", "parse", "calculate", "convert", "translate"]

/-- `sum(1 for indicator in indicators if indicator in task_lower)`. -/
def keywordScore (indicators : List String) (task_lower : List Char) : Nat :=
  (indicators.filter (fun ind => containsSub ind.data task_lower)).length

/-- `ReasoningManager._select_strategy` (reasoning/__init__.py lines
42-72): keyword scores, a +1 tree-search bonus for a context longer than
1000 characters, a further +1 bonus for a task longer than 20 words, and
`"tree_of_thoughts"` only on a strictly higher score. -/
def selectStrategy (task context : String) : List Char :=
  let task_lower := pyLower task.data
  let tot_score := keywordScore totIndicators task_lower
  let react_score := keywordScore reactIndicators task_lower
  let tot_score := if context.length > 1000 then tot_score + 1 else tot_score
  let tot_score := if (pyWords task.data).length > 20 then tot_score + 1 else tot_score
  if tot_score > react_score then "tree_of_thoughts".data else "react".data

/-- Modelled from the claim's words, for comparison with `selectStrategy`
(not from the source): a SINGLE bonus point awarded for the disjunction
"context exceeds 1000 characters or task exceeds 20 words". -/
def selectStrategyClaimed (task context : String) : List Char :=
  let task_lower := pyLower task.data
  let tot_score := keywordScore totIndicators task_lower
  let react_score := keywordScore reactIndicators task_lower
  let tot_score :=
    if context.length > 1000 ∨ (pyWords task.data).length > 20 then tot_score + 1
    else tot_score
  if tot_score > react_score then "tree_of_thoughts".data else "react".data

/-- A 21-word task containing exactly one retrieval keyword ("find"). -/
def cxRouterTask : String := "find w w w w w w w w w w w w w w w w w w w w"

/-- A 1001-character context string. -/
def cxRouterContext : String := String.mk (List.replicate 1001 'c')

/-- A successful result literal used to instantiate the aggregation
theorems. -/
def sampleOkResult : ToolResult :=
  ToolResult.mk "web_search" true (ToolPayload.str "ok") none 0 []

/-- A failed result literal used to instantiate the aggregation theorems. -/
def sampleFailResult : ToolResult :=
  ToolResult.mk "web_search" false (ToolPayload.str "") (some "boom") 0 []

end RAgent

open RAgent

/-- C1: for every agent context and target state, `transition` succeeds iff
the target is in the transition table's allowed set for the context's
current state; on success it appends the new state to the machine's
append-only `transition_history`, sets `context.state` to the target and
stamps `last_updated` with the current clock, leaving the other context
fields untouched; on an invalid target it raises (returns an error) and no
updated history/context is produced, so the caller's state is unchanged. -/
theorem transition_spec (history : List AgentState) (ctx : AgentContextM)
    (s : AgentState) (now : Nat) :
    (s ∈ validTransitions ctx.state →
      transition history ctx s now =
        Except.ok (history ++ [s],
          AgentContextM.mk s ctx.query ctx.results ctx.reasoning_history now)) ∧
    (s ∉ validTransitions ctx.state →
      transition history ctx s now =
        Except.error ("Invalid transition from " ++ ctx.state.value ++ " to "
          ++ s.value)) ∧
    ((∃ r, transition history ctx s now = Except.ok r) ↔
      s ∈ validTransitions ctx.state) := by
  have hmem : canTransition ctx.state s = true ↔ s ∈ validTransitions ctx.state := by
    simp [canTransition]
  refine ⟨fun h => ?_, fun h => ?_, ?_⟩
  · rw [transition, if_pos (hmem.mpr h)]
  · rw [transition, if_neg]
    simp only [hmem]
    exact h
  · constructor
    · rintro ⟨r, hr⟩
      by_contra hmemno
      rw [transition, if_neg (by simp only [hmem]; exact hmemno)] at hr
      exact Except.noConfusion hr
    · intro h
      exact ⟨_, by rw [transition, if_pos (hmem.mpr h)]⟩

/-- C1 witness: from IDLE, the transition to PLANNING at clock 7 succeeds
and produces exactly the appended history and restamped context. -/
theorem transition_spec_witness :
    transition [] sampleContext AgentState.PLANNING 7 =
      Except.ok ([AgentState.PLANNING],
        AgentContextM.mk AgentState.PLANNING none [] [] 7) :=
  (transition_spec [] sampleContext AgentState.PLANNING 7).1 (by decide)

/-- C7: a plan accepted by construction keeps its steps as given and their
numbers are exactly `1..N`; a plan whose step numbers contain a duplicate
or are non-sequential is rejected with a validation error. -/
theorem plan_validation_spec (query : String) (steps : List ResearchStep)
    (strategy : String) (dur : Option Nat) :
    (∀ p, mkResearchPlan query steps strategy dur = Except.ok p →
      p.steps = steps ∧
      steps.map (·.step_number) = List.range' 1 steps.length) ∧
    (hasDup (steps.map (·.step_number)) = true ∨
        steps.map (·.step_number) ≠ List.range' 1 steps.length →
      ∃ msg, mkResearchPlan query steps strategy dur = Except.error msg) := by
  constructor
  · intro p hp
    rw [mkResearchPlan] at hp
    split at hp
    · exact Except.noConfusion hp
    split at hp
    · exact Except.noConfusion hp
    split at hp
    · exact Except.noConfusion hp
    next hv =>
      refine ⟨by injection hp with h; rw [← h], ?_⟩
      rw [validateStepNumbers] at hv
      split at hv
      · exact Option.noConfusion hv
      split at hv
      · exact Option.noConfusion hv
      next hseq =>
        have := not_ne_iff.mp hseq
        simpa [List.length_map] using this
  · intro h
    rw [mkResearchPlan]
    split
    · exact ⟨_, rfl⟩
    split
    · exact ⟨_, rfl⟩
    have : ∃ msg, validateStepNumbers steps = some msg := by
      rw [validateStepNumbers]
      rcases h with hdup | hseq
      · exact ⟨_, by rw [if_pos hdup]⟩
      · split
        · exact ⟨_, rfl⟩
        · exact ⟨_, by rw [if_pos (by simpa [List.length_map] using hseq)]⟩
    rcases this with ⟨msg, hmsg⟩
    rw [hmsg]
    exact ⟨msg, rfl⟩

/-- C7 witness: a two-step plan whose steps both carry number 1 is rejected
with a validation error. -/
theorem plan_validation_spec_witness :
    ∃ msg, mkResearchPlan "q" [dupStepA, dupStepB] "decomposition_first" none =
      Except.error msg :=
  (plan_validation_spec "q" [dupStepA, dupStepB] "decomposition_first" none).2
    (by decide)

/-- C4: `shouldTerminateEarly` is false for fewer than 2 results; with at
least 2 results it is true iff `failed/total` strictly exceeds the
threshold; at exact equality with the threshold it is false. -/
theorem should_terminate_early_spec (results : List ToolResult) (t : ℚ) :
    (results.length < 2 → shouldTerminateEarly results t = false) ∧
    (2 ≤ results.length →
      (shouldTerminateEarly results t = true ↔
        ((results.filter (fun r => !r.success)).length : ℚ) /
          (results.length : ℚ) > t)) ∧
    (((results.filter (fun r => !r.success)).length : ℚ) /
        (results.length : ℚ) = t →
      shouldTerminateEarly results t = false) := by
  have h2iff : ∀ h2 : ¬ results.length < 2,
      shouldTerminateEarly results t =
        decide (((results.filter (fun r => !r.success)).length : ℚ) /
          (results.length : ℚ) > t) := by
    intro h2
    simp only [shouldTerminateEarly, if_neg h2]
  refine ⟨fun h => ?_, fun h => ?_, fun h => ?_⟩
  · simp only [shouldTerminateEarly, if_pos h]
  · rw [h2iff (by omega)]
    simp
  · by_cases h2 : results.length < 2
    · simp only [shouldTerminateEarly, if_pos h2]
    · rw [h2iff h2, h]
      simp

/-- C4 witness: a single result is below the 2-result floor, so the
circuit breaker stays closed. -/
theorem should_terminate_early_spec_witness :
    shouldTerminateEarly [sampleFailResult] (1/2) = false :=
  (should_terminate_early_spec [sampleFailResult] (1/2)).1 (by decide)

/-- C10: the execution-summary aggregation is total on the empty result
list — success rate 0 and average execution time 0, both divisions
guarded — and on any non-empty list the success rate is the number of
successful results divided by the total. -/
theorem execution_summary_total :
    (getExecutionSummary []).success_rate = 0 ∧
    (getExecutionSummary []).average_execution_time = 0 ∧
    (∀ results : List ToolResult, results ≠ [] →
      (getExecutionSummary results).success_rate =
        ((results.filter (·.success)).length : ℚ) / (results.length : ℚ)) := by
  refine ⟨rfl, rfl, fun results h => ?_⟩
  have hlen : results.length ≠ 0 := fun hl => h (List.length_eq_zero.mp hl)
  simp only [getExecutionSummary, if_pos hlen]

/-- C10 witness: one successful result yields success rate 1. -/
theorem execution_summary_total_witness :
    (getExecutionSummary [sampleOkResult]).success_rate = 1 := by
  have h := execution_summary_total.2.2 [sampleOkResult] (by decide)
  rw [h]
  norm_num [sampleOkResult]

/-- C2 counterexample: for a step whose nominal strategy is ITERATIVE
(REACT) and whose first two attempts fail, attempt index 2 (the third
attempt) is executed with `tree_of_thoughts` again — not back with
`react` as the claim states.  The full failing-step trace is
[react, tree_of_thoughts, tree_of_thoughts]. -/
theorem retry_strategy_counterexample :
    executeStepStrategyTrace ReasoningStrategy.REACT alwaysFail =
      ["react".data, "tree_of_thoughts".data, "tree_of_thoughts".data] ∧
    selectReasoningStrategy ReasoningStrategy.REACT 2 ≠ "react".data := by
  exact ⟨rfl, by decide⟩

/-- C2 (amended): on every retry attempt (`attempt > 0`) the executor uses
the strategy opposite to the step's nominal one, and it repeats that
escalated strategy on each further retry instead of alternating back; a
fully failing step is attempted with
[nominal, escalated, escalated]. -/
theorem retry_strategy_escalation (strategy : ReasoningStrategy)
    (attempt : Nat) (h : 0 < attempt) :
    selectReasoningStrategy strategy attempt = escalatedStrategy strategy ∧
    executeStepStrategyTrace strategy alwaysFail =
      [pyLower strategy.value.data, escalatedStrategy strategy,
        escalatedStrategy strategy] := by
  obtain ⟨n, rfl⟩ : ∃ n, attempt = n + 1 := ⟨attempt - 1, by omega⟩
  cases strategy
  · exact ⟨by simp only [selectReasoningStrategy, if_pos (Nat.succ_pos n)]; rfl, rfl⟩
  · exact ⟨by simp only [selectReasoningStrategy, if_pos (Nat.succ_pos n)]; rfl, rfl⟩

/-- C2 witness: the first retry of a REACT step runs tree-of-thoughts. -/
theorem retry_strategy_escalation_witness :
    selectReasoningStrategy ReasoningStrategy.REACT 1 =
      escalatedStrategy ReasoningStrategy.REACT ∧
    executeStepStrategyTrace ReasoningStrategy.REACT alwaysFail =
      [pyLower ReasoningStrategy.REACT.value.data,
        escalatedStrategy ReasoningStrategy.REACT,
        escalatedStrategy ReasoningStrategy.REACT] :=
  retry_strategy_escalation ReasoningStrategy.REACT 1 (by decide)

/-- Helper: deciding which strategy string an `if score > score` dispatch
returns. -/
theorem if_strategy_eq (a b : Nat) :
    ((if a > b then "tree_of_thoughts".data else "react".data) =
        "tree_of_thoughts".data ↔ a > b) ∧
    ((if a > b then "tree_of_thoughts".data else "react".data) =
        "react".data ↔ ¬ a > b) := by
  by_cases h : a > b <;> simp [h]

/-- C8 counterexample: for a task with one retrieval keyword, more than 20
words, and a context longer than 1000 characters, the source router adds
one point per condition (two in total) and picks `tree_of_thoughts`,
whereas the claimed single-point-for-the-disjunction router would tie
1-to-1 and pick `react`. -/
theorem router_bonus_counterexample :
    selectStrategy cxRouterTask cxRouterContext = "tree_of_thoughts".data ∧
    selectStrategyClaimed cxRouterTask cxRouterContext = "react".data := by
  constructor
  · decide
  · decide

/-- C8 (amended): with hint "auto" the router scores the task against the
two keyword sets, adds one point to the tree-search score for EACH of the
two complexity conditions (long context, long task — up to two points,
not a single point for their disjunction), and selects `tree_of_thoughts`
iff the tree-search score strictly exceeds the retrieval score; ties
select `react`. -/
theorem strategy_router_spec (task context : String) :
    (selectStrategy task context = "tree_of_thoughts".data ↔
      keywordScore totIndicators (pyLower task.data)
        + (if context.length > 1000 then 1 else 0)
        + (if (pyWords task.data).length > 20 then 1 else 0)
        > keywordScore reactIndicators (pyLower task.data)) ∧
    (selectStrategy task context = "react".data ↔
      ¬ (keywordScore totIndicators (pyLower task.data)
        + (if context.length > 1000 then 1 else 0)
        + (if (pyWords task.data).length > 20 then 1 else 0)
        > keywordScore reactIndicators (pyLower task.data))) := by
  have hval : selectStrategy task context =
      (if keywordScore totIndicators (pyLower task.data)
          + (if context.length > 1000 then 1 else 0)
          + (if (pyWords task.data).length > 20 then 1 else 0)
        > keywordScore reactIndicators (pyLower task.data)
       then "tree_of_thoughts".data else "react".data) := by
    unfold selectStrategy
    by_cases h1 : context.length > 1000 <;>
      by_cases h2 : (pyWords task.data).length > 20 <;>
        simp [h1, h2]
  rw [hval]
  exact if_strategy_eq _ _

/-- Helper: the scheduler's readiness test, spelled out. -/
theorem stepReady_iff (c : List Nat) (s : ResearchStep) :
    stepReady c s = true ↔
      (s.completed = false ∧ ∀ dep ∈ s.dependencies, dep ∈ c) := by
  simp [stepReady, List.all_eq_true]

/-- Helper: `find?` returning `some a` splits the list at the first hit. -/
theorem find?_eq_some_split {α : Type _} (p : α → Bool) :
    ∀ (l : List α) (a : α), l.find? p = some a →
      ∃ l1 l2, l = l1 ++ a :: l2 ∧ (∀ x ∈ l1, p x = false) ∧ p a = true := by
  intro l
  induction l with
  | nil => intro a h; simp at h
  | cons b t ih =>
    intro a h
    cases hp : p b with
    | true =>
      rw [List.find?_cons_of_pos t hp] at h
      obtain rfl : b = a := by injection h
      exact ⟨[], t, rfl, by simp, hp⟩
    | false =>
      rw [List.find?_cons_of_neg t (by simp [hp])] at h
      obtain ⟨l1, l2, rfl, h1, h2⟩ := ih a h
      refine ⟨b :: l1, l2, rfl, ?_, h2⟩
      intro x hx
      rcases List.mem_cons.mp hx with rfl | hx
      · exact hp
      · exact h1 x hx

/-- Helper: a list mapping onto `range' m` has all images at least `m`. -/
theorem le_of_map_range' {α : Type _} (f : α → Nat) :
    ∀ (m : Nat) (l : List α), l.map f = List.range' m l.length →
      ∀ x ∈ l, m ≤ f x := by
  intro m l
  induction l generalizing m with
  | nil => intro _ x hx; simp at hx
  | cons y t ih =>
    intro h x hx
    rw [List.map_cons, List.length_cons, List.range'_succ] at h
    injection h with hy ht
    rcases List.mem_cons.mp hx with rfl | hx
    · omega
    · exact le_trans (Nat.le_succ m) (ih (m + 1) ht x hx)

/-- Helper: in a list mapping onto a contiguous range, the element after a
prefix of length `j` has image `k + j`, and everything after it has a
strictly larger image. -/
theorem split_map_range' {α : Type _} (f : α → Nat) :
    ∀ (l1 : List α) (k : Nat) (a : α) (l2 : List α),
      (l1 ++ a :: l2).map f = List.range' k (l1 ++ a :: l2).length →
      f a = k + l1.length ∧ ∀ x ∈ l2, f a < f x := by
  intro l1
  induction l1 with
  | nil =>
    intro k a l2 h
    rw [List.nil_append, List.map_cons, List.length_cons, List.range'_succ] at h
    injection h with ha ht
    refine ⟨by simpa using ha, fun x hx => ?_⟩
    have hlow := le_of_map_range' f (k + 1) l2 ht x hx
    omega
  | cons b t ih =>
    intro k a l2 h
    rw [List.cons_append, List.map_cons, List.length_cons, List.range'_succ] at h
    injection h with hb ht
    obtain ⟨hfa, hrest⟩ := ih (k + 1) a l2 ht
    refine ⟨?_, hrest⟩
    rw [hfa, List.length_cons]
    omega

/-- C3: for a plan satisfying the step-numbering invariant,
`getNextExecutableStep` returns `none` iff every step is complete or no
incomplete step has its dependency set contained in the completed step
numbers; otherwise it returns an incomplete, dependency-satisfied step of
minimal step number. -/
theorem next_executable_step_spec (plan : ResearchPlan)
    (hinv : plan.steps.map (·.step_number) = List.range' 1 plan.steps.length) :
    (getNextExecutableStep plan = none ↔
      (∀ s ∈ plan.steps, s.completed = true) ∨
      (∀ s ∈ plan.steps, s.completed = false →
        ¬ ∀ dep ∈ s.dependencies, dep ∈ completedStepNumbers plan)) ∧
    (∀ s, getNextExecutableStep plan = some s →
      s ∈ plan.steps ∧ s.completed = false ∧
      (∀ dep ∈ s.dependencies, dep ∈ completedStepNumbers plan) ∧
      (∀ s' ∈ plan.steps, s'.completed = false →
        (∀ dep ∈ s'.dependencies, dep ∈ completedStepNumbers plan) →
        s.step_number ≤ s'.step_number)) := by
  constructor
  · rw [getNextExecutableStep, List.find?_eq_none]
    constructor
    · intro h
      exact Or.inr fun s hs hc hdeps =>
        h s hs ((stepReady_iff _ _).mpr ⟨hc, hdeps⟩)
    · rintro (hall | hnone) s hs hr
      · obtain ⟨hc, _⟩ := (stepReady_iff _ _).mp hr
        rw [hall s hs] at hc
        exact Bool.noConfusion hc
      · obtain ⟨hc, hd⟩ := (stepReady_iff _ _).mp hr
        exact hnone s hs hc hd
  · intro s hs
    rw [getNextExecutableStep] at hs
    obtain ⟨l1, l2, heq, h1, h2⟩ := find?_eq_some_split _ _ _ hs
    have hmem : s ∈ plan.steps := by rw [heq]; simp
    obtain ⟨hc, hd⟩ := (stepReady_iff _ _).mp h2
    refine ⟨hmem, hc, hd, ?_⟩
    intro s' hs' hc' hd'
    have hready' : stepReady (completedStepNumbers plan) s' = true :=
      (stepReady_iff _ _).mpr ⟨hc', hd'⟩
    have hnum : s.step_number = 1 + l1.length ∧
        ∀ x ∈ l2, s.step_number < x.step_number :=
      split_map_range' (·.step_number) l1 1 s l2 (by rw [← heq]; exact hinv)
    rw [heq] at hs'
    rcases List.mem_append.mp hs' with hx | hx
    · exact absurd hready' (by rw [h1 s' hx]; simp)
    · rcases List.mem_cons.mp hx with rfl | hx
      · exact le_refl _
      · exact Nat.le_of_lt (hnum.2 s' hx)

/-- C3 witness: in the two-step sample plan with step 1 complete, the
scheduler returns step 2, which is incomplete and dependency-satisfied. -/
theorem next_executable_step_spec_witness :
    getNextExecutableStep schedPlan = some schedStep2 ∧
    schedStep2.completed = false ∧
    (∀ dep ∈ schedStep2.dependencies, dep ∈ completedStepNumbers schedPlan) := by
  have h := (next_executable_step_spec schedPlan (by decide)).2 schedStep2 (by decide)
  exact ⟨by decide, h.2.1, h.2.2.1⟩

/-- Helper: duplicate-free lists report no duplicate. -/
theorem hasDup_false_of_nodup : ∀ l : List Nat, l.Nodup → hasDup l = false := by
  intro l
  induction l with
  | nil => intro _; rfl
  | cons n t ih =>
    intro h
    rw [List.nodup_cons] at h
    rw [hasDup, ih h.2]
    simpa using h.1

/-- Helper: `range'` concatenation with step 1. -/
theorem range'_append_1 (s m n : Nat) :
    List.range' s m ++ List.range' (s + m) n = List.range' s (m + n) := by
  have h := List.range'_append s m n 1
  rw [Nat.one_mul] at h
  rw [Nat.add_comm n m] at h
  exact h

/-- Helper: taking a prefix of a step-1 range. -/
theorem take_range' : ∀ (n s m : Nat),
    (List.range' s m).take n = List.range' s (min n m) := by
  intro n
  induction n with
  | zero => intro s m; simp
  | succ n ih =>
    intro s m
    cases m with
    | zero => simp
    | succ m =>
      rw [List.range'_succ, List.take_succ_cons, ih (s + 1) m]
      rw [Nat.succ_min_succ, List.range'_succ]

/-- Helper: when every step numbered below `cur` is completed and the
numbers are the contiguous range from `k`, the completed-below-`cur`
filter is exactly the length-`cur - k` prefix. -/
theorem filter_completed_prefix :
    ∀ (l : List ResearchStep) (k cur : Nat),
      l.map (·.step_number) = List.range' k l.length →
      (∀ s ∈ l, s.step_number < cur → s.completed = true) →
      l.filter (fun step => decide (step.step_number < cur) && step.completed) =
        l.take (cur - k) := by
  intro l
  induction l with
  | nil => intro k cur _ _; simp
  | cons b t ih =>
    intro k cur hmap hcomp
    rw [List.map_cons, List.length_cons, List.range'_succ] at hmap
    injection hmap with hb ht
    by_cases hlt : b.step_number < cur
    · have hbc : b.completed = true := hcomp b (List.mem_cons_self b t) hlt
      rw [List.filter_cons, if_pos (by simp [hlt, hbc])]
      have hck : cur - k = (cur - (k + 1)) + 1 := by omega
      rw [hck, List.take_succ_cons]
      rw [ih (k + 1) cur ht (fun s hs h => hcomp s (List.mem_cons_of_mem b hs) h)]
    · have hck : cur - k = 0 := by omega
      rw [hck, List.take_zero, List.filter_cons, if_neg (by simp [hlt])]
      rw [List.filter_eq_nil_iff]
      intro s hs
      have hlow : k + 1 ≤ s.step_number :=
        le_of_map_range' (·.step_number) (k + 1) t ht s hs
      simp only [Bool.and_eq_true, decide_eq_true_eq, not_and]
      intro hcontra
      omega

/-- Helper: the first components of `enumFrom i`, shifted by `cur`, form a
step-1 range. -/
theorem map_fst_add_enumFrom {α : Type _} :
    ∀ (l : List α) (i cur : Nat),
      (List.enumFrom i l).map (fun q => cur + q.1) =
        List.range' (cur + i) l.length := by
  intro l
  induction l with
  | nil => intro i cur; rfl
  | cons b t ih =>
    intro i cur
    rw [List.enumFrom_cons, List.map_cons, List.length_cons, List.range'_succ]
    rw [ih (i + 1) cur]
    rfl

/-- C5 counterexample: replanning the three-step plan (step 1 complete,
step 2 INCOMPLETE) from step 3 drops the incomplete step 2, leaving step
numbers {1, 3}; the resulting plan is not contiguous, and its construction
fails pydantic validation instead of yielding a plan. -/
theorem replan_contiguity_counterexample :
    replanFromStep cxReplanOriginal 3 [cxReplanNewStep] =
      Except.error "Step numbers must be sequential starting from 1" := by
  rfl

/-- C5 (amended): for an original plan satisfying the numbering invariant
in which EVERY step numbered below `fromStepNumber` is complete (and
`fromStepNumber ≤ N + 1`), `replan_from_step` succeeds: it retains the
completed prefix unchanged, renumbers the regenerated steps consecutively
from `fromStepNumber` with dependencies filtered to numbers below
`fromStepNumber`, and the surviving plan's numbers are again contiguous
`1..N'`.  (When some earlier step is incomplete it is dropped and the
gapped numbering fails plan validation, per the counterexample.) -/
theorem replan_from_step_spec (orig : ResearchPlan) (cur : Nat)
    (new_steps : List ResearchStep)
    (hinv : orig.steps.map (·.step_number) = List.range' 1 orig.steps.length)
    (hq : 1 ≤ orig.query.length)
    (hc1 : 1 ≤ cur) (hc2 : cur ≤ orig.steps.length + 1)
    (hcomp : ∀ s ∈ orig.steps, s.step_number < cur → s.completed = true)
    (hne : 1 ≤ (cur - 1) + new_steps.length) :
    ∃ p, replanFromStep orig cur new_steps = Except.ok p ∧
      p.steps = orig.steps.take (cur - 1) ++
        new_steps.enum.map (fun q =>
          ResearchStep.mk (cur + q.1) q.2.task q.2.reasoning_strategy
            q.2.tool_name q.2.expected_output
            (q.2.dependencies.filter (fun dep => decide (dep < cur)))
            q.2.completed q.2.result) ∧
      p.steps.map (·.step_number) =
        List.range' 1 ((cur - 1) + new_steps.length) := by
  have hfilter : orig.steps.filter
      (fun step => decide (step.step_number < cur) && step.completed) =
        orig.steps.take (cur - 1) :=
    filter_completed_prefix orig.steps 1 cur hinv hcomp
  have hadjmap : ((new_steps.enum.map (fun q =>
      ResearchStep.mk (cur + q.1) q.2.task q.2.reasoning_strategy
        q.2.tool_name q.2.expected_output
        (q.2.dependencies.filter (fun dep => decide (dep < cur)))
        q.2.completed q.2.result)).map (·.step_number)) =
      List.range' cur new_steps.length := by
    rw [List.map_map]
    have := map_fst_add_enumFrom new_steps 0 cur
    rw [List.enum_eq_enumFrom]
    simpa using this
  have htakemap : (orig.steps.take (cur - 1)).map (·.step_number) =
      List.range' 1 (cur - 1) := by
    rw [List.map_take, hinv, take_range']
    congr 1
    omega
  have hallmap : ((orig.steps.take (cur - 1) ++ new_steps.enum.map (fun q =>
      ResearchStep.mk (cur + q.1) q.2.task q.2.reasoning_strategy
        q.2.tool_name q.2.expected_output
        (q.2.dependencies.filter (fun dep => decide (dep < cur)))
        q.2.completed q.2.result)).map (·.step_number)) =
      List.range' 1 ((cur - 1) + new_steps.length) := by
    rw [List.map_append, htakemap, hadjmap]
    have hcc : 1 + (cur - 1) = cur := by omega
    calc List.range' 1 (cur - 1) ++ List.range' cur new_steps.length
        = List.range' 1 (cur - 1) ++
            List.range' (1 + (cur - 1)) new_steps.length := by rw [hcc]
      _ = List.range' 1 ((cur - 1) + new_steps.length) := range'_append_1 _ _ _
  have hlen : (orig.steps.take (cur - 1) ++ new_steps.enum.map (fun q =>
      ResearchStep.mk (cur + q.1) q.2.task q.2.reasoning_strategy
        q.2.tool_name q.2.expected_output
        (q.2.dependencies.filter (fun dep => decide (dep < cur)))
        q.2.completed q.2.result)).length = (cur - 1) + new_steps.length := by
    have h := congrArg List.length hallmap
    rw [List.length_map, List.length_range'] at h
    exact h
  have hvalid : validateStepNumbers (orig.steps.take (cur - 1) ++
      new_steps.enum.map (fun q =>
        ResearchStep.mk (cur + q.1) q.2.task q.2.reasoning_strategy
          q.2.tool_name q.2.expected_output
          (q.2.dependencies.filter (fun dep => decide (dep < cur)))
          q.2.completed q.2.result)) = none := by
    simp only [validateStepNumbers]
    rw [hallmap]
    rw [hasDup_false_of_nodup _ (List.nodup_range' _ _)]
    simp [List.length_range']
  refine ⟨ResearchPlan.mk orig.query
      (orig.steps.take (cur - 1) ++ new_steps.enum.map (fun q =>
        ResearchStep.mk (cur + q.1) q.2.task q.2.reasoning_strategy
          q.2.tool_name q.2.expected_output
          (q.2.dependencies.filter (fun dep => decide (dep < cur)))
          q.2.completed q.2.result))
      "replanned"
      (some (estimateDuration (new_steps.enum.map (fun q =>
        ResearchStep.mk (cur + q.1) q.2.task q.2.reasoning_strategy
          q.2.tool_name q.2.expected_output
          (q.2.dependencies.filter (fun dep => decide (dep < cur)))
          q.2.completed q.2.result)))), ?_, rfl, hallmap⟩
  simp only [replanFromStep]
  rw [hfilter]
  simp only [mkResearchPlan]
  rw [if_neg (by omega : ¬ orig.query.length < 1)]
  rw [if_neg (by rw [hlen]; omega)]
  rw [hvalid]

/-- A two-step original plan whose below-`fromStepNumber` prefix is fully
complete, used to instantiate the replanning theorem. -/
def witReplanOriginal : ResearchPlan :=
  ResearchPlan.mk "q" [cxPlanStep1, cxPlanStep2] "decomposition_first" none

/-- C5 witness: replanning the two-step plan from step 2 (step 1 complete)
keeps step 1, renumbers the single regenerated step to 2, and yields the
contiguous numbering [1, 2]. -/
theorem replan_from_step_spec_witness :
    ∃ p, replanFromStep witReplanOriginal 2 [cxReplanNewStep] = Except.ok p ∧
      p.steps = witReplanOriginal.steps.take 1 ++
        [cxReplanNewStep].enum.map (fun q =>
          ResearchStep.mk (2 + q.1) q.2.task q.2.reasoning_strategy
            q.2.tool_name q.2.expected_output
            (q.2.dependencies.filter (fun dep => decide (dep < 2)))
            q.2.completed q.2.result) ∧
      p.steps.map (·.step_number) = List.range' 1 2 :=
  replan_from_step_spec witReplanOriginal 2 [cxReplanNewStep]
    (by decide) (by decide) (by decide) (by decide) (by decide) (by decide)

/-- C9: the fallback contract is broken.  When the LLM response holds no
parsable JSON, `_parse_plan_response` returns `[]` (despite its own
"Fallback to template-based planning" comment), so plan construction
raises a validation error and NO plan — template or otherwise — is
returned (first conjunct).  The template fallback does fire when the LLM
invocation raises (second conjunct).  And a proposed step depending on
the non-existent step 99 is NOT rejected: plan validation only checks the
numbering, so the plan is accepted (third conjunct). -/
theorem plan_fallback_divergence :
    decompositionFirstPlan "q" ["web_search"] (LLMPlanOutcome.parsed []) =
      Except.error "steps: ensure this value has at least 1 items" ∧
    decompositionFirstPlan "q" ["web_search"] LLMPlanOutcome.raises =
      Except.ok (ResearchPlan.mk "q" (generateTemplateSteps "q" ["web_search"])
        "decomposition_first" (some 32)) ∧
    mkResearchPlan "q" [danglingDepStep] "decomposition_first" none =
      Except.ok (ResearchPlan.mk "q" [danglingDepStep]
        "decomposition_first" none) := by
  refine ⟨by rfl, by rfl, by rfl⟩

/-- Helper: inserting a child grows the node table by exactly one. -/
theorem processChild_tree_length (evalScore : String → Nat) (depth : Nat)
    (pid : String) (st : LevelState) (content : String) :
    (processChild evalScore depth pid st content).tree.length =
      st.tree.length + 1 := by
  simp [processChild, appendChildId]

/-- Helper: the child loop grows the node table by the number of
generated contents. -/
theorem foldl_processChild_length (evalScore : String → Nat) (depth : Nat)
    (pid : String) :
    ∀ (cs : List String) (st : LevelState),
      (cs.foldl (processChild evalScore depth pid) st).tree.length =
        st.tree.length + cs.length := by
  intro cs
  induction cs with
  | nil => intro st; simp
  | cons c t ih =>
    intro st
    rw [List.foldl_cons, ih, processChild_tree_length, List.length_cons]
    omega

/-- Helper: one parent adds at most `B` nodes when the generator returns
at most `B` thoughts per request. -/
theorem processParent_tree_length (generate : ThoughtNode → List String)
    (evalScore : String → Nat) (depth B : Nat)
    (hB : ∀ node, (generate node).length ≤ B) (st : LevelState)
    (pid : String) :
    (processParent generate evalScore depth st pid).tree.length ≤
      st.tree.length + B := by
  simp only [processParent]
  rw [foldl_processChild_length]
  exact Nat.add_le_add_left (hB _) _

/-- Helper: a level of parents adds at most `#parents * B` nodes. -/
theorem foldl_processParent_length (generate : ThoughtNode → List String)
    (evalScore : String → Nat) (depth B : Nat)
    (hB : ∀ node, (generate node).length ≤ B) :
    ∀ (ps : List String) (st : LevelState),
      (ps.foldl (processParent generate evalScore depth) st).tree.length ≤
        st.tree.length + ps.length * B := by
  intro ps
  induction ps with
  | nil => intro st; simp
  | cons p t ih =>
    intro st
    rw [List.foldl_cons]
    calc (t.foldl (processParent generate evalScore depth)
          (processParent generate evalScore depth st p)).tree.length
        ≤ (processParent generate evalScore depth st p).tree.length +
            t.length * B := ih _
      _ ≤ (st.tree.length + B) + t.length * B :=
          Nat.add_le_add_right
            (processParent_tree_length generate evalScore depth B hB st p) _
      _ = st.tree.length + (t.length + 1) * B := by ring
      _ = st.tree.length + (p :: t).length * B := by rw [List.length_cons]

/-- Helper: pruning never admits more than K ids. -/
theorem selectBestThoughts_length_le (thought_ids : List String)
    (tree : List (String × ThoughtNode)) :
    (selectBestThoughts thought_ids tree).length ≤ maxThoughtsPerLevel := by
  simp only [selectBestThoughts, List.length_map, List.length_take]
  exact Nat.min_le_left _ _

/-- Helper: a level grows the table by at most `#current * B` nodes and
hands at most K parents to the next level. -/
theorem levelStep_bounds (generate : ThoughtNode → List String)
    (evalScore : String → Nat) (B : Nat)
    (hB : ∀ node, (generate node).length ≤ B) (st : TotState) (depth : Nat) :
    (levelStep generate evalScore st depth).tree.length ≤
      st.tree.length + st.current_level.length * B ∧
    (levelStep generate evalScore st depth).current_level.length ≤
      maxThoughtsPerLevel := by
  constructor
  · simp only [levelStep]
    exact foldl_processParent_length generate evalScore depth B hB
      st.current_level (LevelState.mk st.tree [] st.solution_candidates)
  · simp only [levelStep]
    split
    · exact selectBestThoughts_length_le _ _
    · next hle => omega

/-- Helper: the depth loop over `ds` levels grows the table by at most
`#ds * (K * B)` nodes, early exit included. -/
theorem runLevels_tree_length (generate : ThoughtNode → List String)
    (evalScore : String → Nat) (B : Nat)
    (hB : ∀ node, (generate node).length ≤ B) :
    ∀ (ds : List Nat) (st : TotState),
      st.current_level.length ≤ maxThoughtsPerLevel →
      (runLevels generate evalScore ds st).tree.length ≤
        st.tree.length + ds.length * (maxThoughtsPerLevel * B) := by
  intro ds
  induction ds with
  | nil => intro st _; simp [runLevels]
  | cons d rest ih =>
    intro st hcur
    obtain ⟨ht, hc⟩ := levelStep_bounds generate evalScore B hB st d
    have hlev : (levelStep generate evalScore st d).tree.length ≤
        st.tree.length + maxThoughtsPerLevel * B :=
      le_trans ht (Nat.add_le_add_left (Nat.mul_le_mul_right B hcur) _)
    simp only [runLevels]
    split
    · calc (levelStep generate evalScore st d).tree.length
          ≤ st.tree.length + maxThoughtsPerLevel * B := hlev
        _ ≤ st.tree.length + (rest.length + 1) * (maxThoughtsPerLevel * B) :=
            Nat.add_le_add_left (Nat.le_mul_of_pos_left _ (Nat.succ_pos _)) _
        _ = st.tree.length + (d :: rest).length * (maxThoughtsPerLevel * B) := by
            rw [List.length_cons]
    · calc (runLevels generate evalScore rest
            (levelStep generate evalScore st d)).tree.length
          ≤ (levelStep generate evalScore st d).tree.length +
              rest.length * (maxThoughtsPerLevel * B) := ih _ hc
        _ ≤ (st.tree.length + maxThoughtsPerLevel * B) +
              rest.length * (maxThoughtsPerLevel * B) :=
            Nat.add_le_add_right hlev _
        _ = st.tree.length + (rest.length + 1) * (maxThoughtsPerLevel * B) := by
            ring
        _ = st.tree.length + (d :: rest).length * (maxThoughtsPerLevel * B) := by
            rw [List.length_cons]

/-- C6 counterexample: with the source's own offline generator (2 mock
thoughts per parent) and offline evaluator, the search for an eleven-word
problem creates 19 nodes — the node table at return exceeds the claimed
bound of 1 + D*K = 13.  Pruning caps only the nodes that ADVANCE per
level, not the nodes created. -/
theorem tree_search_node_bound_counterexample :
    (solveProblem mockGenerate mockEvaluate cxTotProblem "").tree.length = 19 ∧
    ¬ (19 ≤ 1 + maxDepth * maxThoughtsPerLevel) := by
  exact ⟨by rfl, by decide⟩

/-- C6 (amended): for every problem, context, evaluator, and generator
returning at most `B` thoughts per request, the bounded tree search
creates at most `1 + D * (K * B)` nodes: the root, plus at most `K`
parents per level each contributing at most `B` children for `D` levels.
The per-level cap `K` bounds the nodes admitted to the next level, not
the nodes created (the prompt requests 2-3 thoughts, so `B = 3` gives a
node-table bound of 37; the claimed `1 + D*K = 13` holds only for
`B = 1`). -/
theorem tree_search_node_bound (generate : ThoughtNode → List String)
    (evalScore : String → Nat) (problem context : String) (B : Nat)
    (hB : ∀ node, (generate node).length ≤ B) :
    (solveProblem generate evalScore problem context).tree.length ≤
      1 + maxDepth * (maxThoughtsPerLevel * B) := by
  simp only [solveProblem]
  have h := runLevels_tree_length generate evalScore B hB
    (List.range' 1 maxDepth)
    (TotState.mk [("root", ThoughtNode.mk "root" ("Problem: " ++ problem)
      none 0 10 "expanded" [] [("context", context)])] ["root"] [])
    (by simp [maxThoughtsPerLevel])
  simpa [List.length_range'] using h

/-- C6 witness: the mock generator returns at most 2 thoughts per request,
so its searches stay within 1 + 4 * (3 * 2) = 25 nodes. -/
theorem tree_search_node_bound_witness :
    (solveProblem mockGenerate mockEvaluate cxTotProblem "").tree.length ≤
      1 + maxDepth * (maxThoughtsPerLevel * 2) :=
  tree_search_node_bound mockGenerate mockEvaluate cxTotProblem "" 2
    (fun node => by simp [mockGenerate])
